import Mathlib

/-!
Verification of the ingestion/normalization pipeline and query layer of
`App_controle_pessoal.py` (a personal-finance dashboard).  The Python source
is shallowly embedded: pandas tables become lists of rows, the filesystem
becomes an explicit directory tree, and fallible steps return `Option` /
`Except`.  External library behaviour (pandas CSV reading and date parsing)
is modelled at the level of detail the source exercises.
-/

/-! ## String helpers (model of Python `in`, `lower`, `strip`) -/

/-- Boolean test that the first character list is a prefix of the second. -/
def isPrefixL : List Char → List Char → Bool
  | [], _ => true
  | _ :: _, [] => false
  | a :: as, b :: bs => a == b && isPrefixL as bs

/-- Boolean test that `needle` occurs contiguously inside the second list. -/
def containsSeq (needle : List Char) : List Char → Bool
  | [] => isPrefixL needle []
  | b :: rest => isPrefixL needle (b :: rest) || containsSeq needle rest

/-- Model of the Python expression `needle in hay` on strings. -/
def containsSubstr (hay needle : String) : Bool :=
  containsSeq needle.toList hay.toList

/-- Splits a character list at every occurrence of `sep` (the accumulator
holds the current field reversed). -/
def splitSepAux (sep : Char) : List Char → List Char → List (List Char)
  | [], acc => [acc.reverse]
  | c :: cs, acc =>
    if c == sep then acc.reverse :: splitSepAux sep cs [] else splitSepAux sep cs (c :: acc)

/-- Splitting a string on a single-character separator (the only kind the
source uses: newline, comma, semicolon, slash, dash). -/
def splitSep (sep : Char) (s : String) : List String :=
  (splitSepAux sep s.toList []).map (fun l => String.mk l)

/-- Suffix test on character lists. -/
def isSuffixL (a b : List Char) : Bool :=
  isPrefixL a.reverse b.reverse

/-- Model of Python `str.endswith`. -/
def strEndsWith (s suffix : String) : Bool :=
  isSuffixL suffix.toList s.toList

/-- Whitespace characters stripped by Python `str.strip()`. -/
def isWs (c : Char) : Bool :=
  c == ' ' || c == '\t' || c == '\n' || c == '\r'

/-- Model of Python `str.strip()`. -/
def trimStr (s : String) : String :=
  String.mk (((s.toList.dropWhile isWs).reverse.dropWhile isWs).reverse)

/-- Model of Python `str.lower()` on the characters the source meets. -/
def lowerStr (s : String) : String :=
  String.mk (s.toList.map Char.toLower)

/-- The numeric value of a decimal digit character. -/
def digitVal? (c : Char) : Option Nat :=
  if c.isDigit then some (c.toNat - 48) else none

/-- Accumulating decimal parser over characters. -/
def natOfChars (acc : Nat) : List Char → Option Nat
  | [] => some acc
  | c :: cs =>
    match digitVal? c with
    | some d => natOfChars (acc * 10 + d) cs
    | none => none

/-- Parses a string of decimal digits; anything else (including the empty
string) is `none`. -/
def strToNat? (s : String) : Option Nat :=
  match s.toList with
  | [] => none
  | cs => natOfChars 0 cs

/-- The decimal digit character for a value below ten. -/
def digitChar (n : Nat) : Char := Char.ofNat (48 + n)

/-- Decimal digits of a number, driven by a fuel bound. -/
def natDigits : Nat → Nat → List Char
  | 0, _ => []
  | fuel + 1, n => if n < 10 then [digitChar n] else natDigits fuel (n / 10) ++ [digitChar (n % 10)]

/-- Decimal rendering of a natural number. -/
def natToStr (n : Nat) : String :=
  String.mk (natDigits (n + 1) n)

/-! ## Dates and timestamps -/

/-- A calendar date, as produced by date parsing. -/
structure Date where
  year : Nat
  month : Nat
  day : Nat
deriving DecidableEq, Repr

/-- Lexicographic key so that date comparison is a `Nat` comparison. -/
def Date.key (d : Date) : Nat := d.year * 10000 + d.month * 100 + d.day

/-- A parsed timestamp: a date plus optional time-zone information, the
part of a pandas timestamp that `tz_localize(None)` acts on. -/
structure Timestamp where
  date : Date
  tz : Option String
deriving DecidableEq, Repr

/-- Model of ISO `yyyy-mm-dd` date parsing used by `pd.to_datetime`. -/
def parseIsoDate (s : String) : Option Date :=
  match splitSep (Char.ofNat 45) s with
  | [y, m, d] =>
    match strToNat? y, strToNat? m, strToNat? d with
    | some yn, some mn, some dn =>
      if 1 ≤ mn ∧ mn ≤ 12 ∧ 1 ≤ dn ∧ dn ≤ 31 then some ⟨yn, mn, dn⟩ else none
    | _, _, _ => none
  | _ => none

/-- Model of `pd.to_datetime(x, errors='coerce', dayfirst=True)` on the
string values the source feeds it: slash-separated dates are read
day-first (`dd/mm/yyyy`), ISO dates are read `yyyy-mm-dd` with an optional
time part that may carry a time-zone suffix; anything else coerces to
`none` (pandas `NaT`). -/
def parseTimestamp (s : String) : Option Timestamp :=
  match splitSep (Char.ofNat 47) s with
  | [d, m, y] =>
    match strToNat? d, strToNat? m, strToNat? y with
    | some dn, some mn, some yn =>
      if 1 ≤ dn ∧ dn ≤ 31 ∧ 1 ≤ mn ∧ mn ≤ 12 then
        some ⟨⟨yn, mn, dn⟩, none⟩
      else none
    | _, _, _ => none
  | [t] =>
    match splitSep (Char.ofNat 84) t with
    | [dOnly] => (parseIsoDate dOnly).map (fun dd => ⟨dd, none⟩)
    | [dPart, timePart] =>
      (parseIsoDate dPart).map (fun dd =>
        ⟨dd, if strEndsWith timePart "Z" || (splitSep (Char.ofNat 43) timePart).length ≥ 2
             then some timePart else none⟩)
    | _ => none
  | _ => none

/-! ## CSV reading (model of the two-try `pd.read_csv` heuristic) -/

/-- A raw table as returned by a pandas reader: a header row and data rows. -/
structure RawTable where
  headers : List String
  rows : List (List String)
deriving DecidableEq, Repr

/-- Concatenation of a list of tables of rows, as done by `pd.concat`
and by flattening walks. -/
def concatAll {α : Type} : List (List α) → List α
  | [] => []
  | l :: ls => l ++ concatAll ls

/-- Model of one `pd.read_csv` attempt with a fixed delimiter: the first
line is the header; rows with more fields than the header raise a parser
error (`none`); rows with fewer fields are padded with missing values
(modelled as `""`).  An empty file raises (`none`). -/
def readCsvWith (delim : Char) (text : String) : Option RawTable :=
  match (splitSep (Char.ofNat 10) text).filter (fun l => l ≠ "") with
  | [] => none
  | h :: rs =>
    let headers := splitSep delim h
    let rows := rs.map (fun r => splitSep delim r)
    if rows.any (fun r => headers.length < r.length) then none
    else some ⟨headers, rows.map (fun r => r ++ List.replicate (headers.length - r.length) "")⟩

/-- Model of the source's CSV reading: try UTF-8 with comma delimiter,
and on failure fall back to Latin-1 with semicolon delimiter (the
encodings are invisible at this level; only the delimiters matter). -/
def readCsv (text : String) : Option RawTable :=
  match readCsvWith (Char.ofNat 44) text with
  | some t => some t
  | none => readCsvWith (Char.ofNat 59) text

/-! ## Column normalization -/

/-- The fixed synonym table `col_mapping` of the source. -/
def colMapping : List (String × String) :=
  [("data", "Data"), ("Data", "Data"), ("date", "Data"),
   ("valor", "Valor"), ("Valor", "Valor"), ("amount", "Valor"),
   ("descriÃ§Ã£o", "Descricao"), ("DescriÃ§Ã£o", "Descricao"),
   ("descrição", "Descricao"), ("descriçao", "Descricao"),
   ("title", "Descricao"), ("description", "Descricao")]

/-- Model of `df.rename(columns=col_mapping)` on a single column name. -/
def renameCol (c : String) : String :=
  match colMapping.find? (fun p => p.1 == c) with
  | some p => p.2
  | none => c

/-- Model of `df.columns.str.strip().str.lower()` followed by the rename. -/
def normalizeHeaders (hs : List String) : List String :=
  hs.map (fun h => renameCol (lowerStr (trimStr h)))

/-- A standardized row, the projection `df[['Data', 'Valor', 'Descricao']]`
(values still raw strings, as pandas object columns). -/
structure StdRow where
  data : String
  valor : String
  descricao : String
deriving DecidableEq, Repr

/-- The cell of a row under the column named `name` (first matching header),
with missing cells read as the missing value `""`. -/
def cellAt (hs cells : List String) (name : String) : String :=
  match hs.findIdx? (fun h => h == name) with
  | some i => cells.getD i ""
  | none => ""

/-- Builds the standardized row for one data row, defaulting a missing
`Descricao` column to the sentinel `"N/A"`. -/
def stdRowOf (hs : List String) (cells : List String) : StdRow :=
  { data := cellAt hs cells "Data",
    valor := cellAt hs cells "Valor",
    descricao := if "Descricao" ∈ hs then cellAt hs cells "Descricao" else "N/A" }

/-- Model of the per-table normalization step of `load_and_process_data`:
normalize headers, require both `Data` and `Valor`, default `Descricao`,
and project; tables failing the column check are skipped (`none`). -/
def processTable (t : RawTable) : Option (List StdRow) :=
  let hs := normalizeHeaders t.headers
  if "Data" ∈ hs ∧ "Valor" ∈ hs then some (t.rows.map (stdRowOf hs)) else none

/-! ## Files and per-file processing -/

/-- The content of a disk file: CSV text, or a table already decoded by
`pd.read_excel` (Excel decoding itself is an external collaborator). -/
inductive Content where
  | csv (text : String)
  | xlsx (table : RawTable)
deriving DecidableEq, Repr

/-- A file: its name and its content. -/
structure FileEntry where
  name : String
  content : Content
deriving DecidableEq, Repr

/-- Model of the per-file read of the source: `.csv` files go through the
two-try CSV heuristic, `.xlsx` through `pd.read_excel`; a failed read is
caught by the per-file `except` and yields `none` (file skipped). -/
def readFile (f : FileEntry) : Option RawTable :=
  match f.content with
  | .csv text => if strEndsWith f.name ".csv" then readCsv text else none
  | .xlsx t => if strEndsWith f.name ".xlsx" then some t else none

/-- Model of the whole per-file body of the loop in `load_and_process_data`:
read, skip empty tables, then normalize and project; every failure path is
non-fatal and yields `none`. -/
def processFile (f : FileEntry) : Option (List StdRow) :=
  match readFile f with
  | none => none
  | some t => if t.rows.isEmpty then none else processTable t

/-! ## Ledger assembly -/

/-- A row of the assembled ledger (columns `Data`, `Valor`, `Descricao`,
`Tipo_Transacao`, `Categoria`; `Valor` is still the raw cell, the source
never converts it at this stage). -/
structure LedgerRow where
  data : Timestamp
  valor : String
  descricao : String
  tipo : String
  categoria : String
deriving DecidableEq, Repr

/-- Descending order on ledger rows by parsed date, the order used by
`sort_values(by='Data', ascending=False)`. -/
def rowDateGe (a b : LedgerRow) : Prop := b.data.date.key ≤ a.data.date.key

instance : DecidableRel rowDateGe :=
  fun a b => inferInstanceAs (Decidable (b.data.date.key ≤ a.data.date.key))

instance : IsTotal LedgerRow rowDateGe :=
  ⟨fun a b => (Nat.le_total b.data.date.key a.data.date.key)⟩

instance : IsTrans LedgerRow rowDateGe :=
  ⟨fun _ _ _ h1 h2 => Nat.le_trans h2 h1⟩

/-- One-row summary of assembly: parse the date, drop on failure, strip the
time zone, and tag the constant metadata. -/
def tagRow (r : StdRow) : Option LedgerRow :=
  (parseTimestamp r.data).map (fun ts =>
    { data := { date := ts.date, tz := none },
      valor := r.valor, descricao := r.descricao,
      tipo := "Movimentação", categoria := "N/A" })

/-- Model of lines 100–113 of the source: `pd.concat`, day-first date
parsing with coercion, `dropna` on `Data`, `tz_localize(None)`, the two
constant tag columns, and the descending sort by date. -/
def assemble (tables : List (List StdRow)) : List LedgerRow :=
  let combined := concatAll tables
  let parsed := combined.filterMap (fun r => (parseTimestamp r.data).map (fun ts => (ts, r)))
  let stripped := parsed.map (fun p => ((⟨p.1.date, none⟩ : Timestamp), p.2))
  let tagged := stripped.map (fun p =>
    ({ data := p.1, valor := p.2.valor, descricao := p.2.descricao,
       tipo := "Movimentação", categoria := "N/A" } : LedgerRow))
  List.insertionSort rowDateGe tagged

/-! ## Directory walk and the full ingestion driver -/

/-- A directory tree: name, files, subdirectories. -/
inductive DirTree where
  | mk (name : String) (files : List FileEntry) (subdirs : List DirTree)

/-- The name of a directory. -/
def DirTree.name : DirTree → String
  | .mk n _ _ => n

/-- The files directly inside a directory. -/
def DirTree.files : DirTree → List FileEntry
  | .mk _ fs _ => fs

/-- The immediate subdirectories of a directory. -/
def DirTree.dirs : DirTree → List DirTree
  | .mk _ _ ds => ds

mutual

/-- The base names of all strict descendants of the root, in the order
`os.walk('.')` visits them (each directory yields its children, then the
walk descends).  The source appends only these base names, never the
joined paths. -/
def walkNames : DirTree → List String
  | .mk _ _ ds => ds.map DirTree.name ++ walkAll ds

/-- Walk of a list of sibling directories, in order. -/
def walkAll : List DirTree → List String
  | [] => []
  | d :: ds => walkNames d ++ walkAll ds

end

/-- Model of the folder-name test: `'extrato' in d.lower() or 'fatura' in
d.lower()`. -/
def matchesFolder (d : String) : Bool :=
  containsSubstr (lowerStr d) "extrato" || containsSubstr (lowerStr d) "fatura"

/-- The `found_folders` list of the source: matching base names collected
during the walk. -/
def foundFolders (t : DirTree) : List String :=
  (walkNames t).filter matchesFolder

/-- Model of `os.listdir(folder_path)` with a bare folder name: it resolves
relative to the working directory, so it finds only an immediate child of
the root; otherwise Python raises `FileNotFoundError`. -/
def rootChild (t : DirTree) (n : String) : Option DirTree :=
  t.dirs.find? (fun d => d.name == n)

/-- The per-folder loop of the source over the collected folder names:
list the folder (an unknown name raises, uncaught), keep `.csv`/`.xlsx`
files, and process each file, skipping failures. -/
def collectTables (t : DirTree) : List String → Except String (List (List StdRow))
  | [] => .ok []
  | f :: rest =>
    match rootChild t f with
    | none => .error f
    | some d =>
      let files := d.files.filter (fun fe => strEndsWith fe.name ".csv" || strEndsWith fe.name ".xlsx")
      let tabs := files.filterMap processFile
      match collectTables t rest with
      | .error e => .error e
      | .ok more => .ok (tabs ++ more)

/-- Possible outcomes of `load_and_process_data`: the two `st.error` +
`st.stop` halts, an uncaught `FileNotFoundError` from `os.listdir` on a
nested folder name, or the assembled ledger. -/
inductive LoadResult where
  | errorNoFolders
  | errorNoData
  | crashFolderNotFound (folder : String)
  | ok (ledger : List LedgerRow)
deriving DecidableEq, Repr

/-- Model of the whole of `load_and_process_data`, lines 13–113. -/
def load_and_process_data (tree : DirTree) : LoadResult :=
  let folders := foundFolders tree
  if folders.isEmpty then .errorNoFolders
  else
    match collectTables tree folders with
    | .error f => .crashFolderNotFound f
    | .ok tabs => if tabs.isEmpty then .errorNoData else .ok (assemble tabs)

/-! ## Query layer

The aggregations of the source consume the filtered ledger whose `Valor`
column is numeric (amounts are modelled as integer cents) and whose `Data`
column is the parsed, time-zone-free date. -/

/-- A row of the filtered ledger as the aggregations see it. -/
structure Row where
  data : Date
  valor : Int
  descricao : String
  tipo : String
  categoria : String
deriving DecidableEq, Repr

/-- The expense predicate `df['Valor'] < 0` of the source. -/
def negB (r : Row) : Bool := decide (r.valor < 0)

/-- First-occurrence deduplication of keys (`seen` accumulates the keys
already emitted). -/
def dedupFirstAux {κ : Type} [DecidableEq κ] (seen : List κ) : List κ → List κ
  | [] => []
  | k :: ks => if k ∈ seen then dedupFirstAux seen ks else k :: dedupFirstAux (k :: seen) ks

/-- The distinct keys of a list, first occurrences first. -/
def dedupFirst {κ : Type} [DecidableEq κ] (l : List κ) : List κ :=
  dedupFirstAux [] l

/-- Model of `groupby(key)['Valor'].sum()`: one entry per distinct key with
the signed sum of the amounts of its group (group-key order abstracted to
first occurrence). -/
def groupSumBy {κ : Type} [DecidableEq κ] (key : Row → κ) (l : List Row) : List (κ × Int) :=
  (dedupFirst (l.map key)).map (fun k => (k, ((l.filter (fun r => key r == k)).map Row.valor).sum))

/-- The month label `Data.dt.to_period('M').astype(str)`, e.g. `"2024-03"`. -/
def mesKey (d : Date) : String :=
  natToStr d.year ++ "-" ++ (if d.month < 10 then "0" else "") ++ natToStr d.month

/-- A chart produced by an aggregation: either the explicit empty-state
figure with its title, or a figure carrying the derived data. -/
inductive Fig (α : Type) where
  | emptyState (title : String)
  | chart (data : α)
deriving DecidableEq, Repr

/-- Ascending order on keyed sums by the signed value, the order behind
`nsmallest`. -/
def valLe (a b : String × Int) : Prop := a.2 ≤ b.2

instance : DecidableRel valLe := fun a b => inferInstanceAs (Decidable (a.2 ≤ b.2))

instance : IsTotal (String × Int) valLe := ⟨fun a b => Int.le_total a.2 b.2⟩

instance : IsTrans (String × Int) valLe := ⟨fun _ _ _ h1 h2 => le_trans h1 h2⟩

/-- Descending order on keyed sums by the (absolute) value, the order of
the ranking table. -/
def valGe (a b : String × Int) : Prop := b.2 ≤ a.2

instance : DecidableRel valGe := fun a b => inferInstanceAs (Decidable (b.2 ≤ a.2))

instance : IsTotal (String × Int) valGe := ⟨fun a b => Int.le_total b.2 a.2⟩

instance : IsTrans (String × Int) valGe := ⟨fun _ _ _ h1 h2 => le_trans h2 h1⟩

/-- Model of `Series.nsmallest(n)`: the `n` entries with smallest signed
value (stable order). -/
def nsmallestByVal (n : Nat) (l : List (String × Int)) : List (String × Int) :=
  (List.insertionSort valLe l).take n

/-- Model of `create_total_by_month_plot`: filter to expenses, empty-state
on an empty subset, otherwise monthly sums reported in absolute value. -/
def create_total_by_month_plot (df : List Row) : Fig (List (String × Int)) :=
  let f := df.filter negB
  if f.isEmpty then .emptyState "Sem dados de gastos para o período"
  else .chart ((groupSumBy (fun r => mesKey r.data) f).map (fun p => (p.1, |p.2|)))

/-- Model of `create_top_establishments_plot`: filter to expenses,
empty-state on an empty subset, otherwise the ten payees with smallest
signed sums, reported in absolute value. -/
def create_top_establishments_plot (df : List Row) : Fig (List (String × Int)) :=
  let f := df.filter negB
  if f.isEmpty then .emptyState "Sem dados de gastos para o período"
  else .chart ((nsmallestByVal 10 (groupSumBy Row.descricao f)).map (fun p => (p.1, |p.2|)))

/-- Model of `create_ranking_by_description`: filter to expenses, a single
sentinel row on an empty subset, otherwise absolute sums sorted descending
(the cosmetic column renaming is dropped). -/
def create_ranking_by_description (df : List Row) : List (String × Int) :=
  let f := df.filter negB
  if f.isEmpty then [("N/A", 0)]
  else List.insertionSort valGe ((groupSumBy Row.descricao f).map (fun p => (p.1, |p.2|)))

/-- Model of `create_category_distribution_plot`: filter to expenses whose
type is not `"Pagamento"`, empty-state on an empty subset, otherwise
absolute sums per category. -/
def create_category_distribution_plot (df : List Row) : Fig (List (String × Int)) :=
  let f := df.filter (fun r => negB r && (r.tipo != "Pagamento"))
  if f.isEmpty then .emptyState "Sem dados de gastos para o período"
  else .chart ((groupSumBy Row.categoria f).map (fun p => (p.1, |p.2|)))

/-- Model of `create_flow_plot`: empty-state on an empty subset, otherwise
the daily net flow (signed sums per date). -/
def create_flow_plot (df : List Row) : Fig (List (Date × Int)) :=
  if df.isEmpty then .emptyState "Sem dados de fluxo para o período"
  else .chart (groupSumBy Row.data df)

/-- Ascending order on rows by date, used by the cumulative-balance sort. -/
def rowDateLe (a b : Row) : Prop := a.data.key ≤ b.data.key

instance : DecidableRel rowDateLe := fun a b => inferInstanceAs (Decidable (a.data.key ≤ b.data.key))

instance : IsTotal Row rowDateLe := ⟨fun a b => Nat.le_total a.data.key b.data.key⟩

instance : IsTrans Row rowDateLe := ⟨fun _ _ _ h1 h2 => Nat.le_trans h1 h2⟩

/-- Running sum of amounts in date order. -/
def cumSumRows (acc : Int) : List Row → List (Date × Int)
  | [] => []
  | r :: rs => (r.data, acc + r.valor) :: cumSumRows (acc + r.valor) rs

/-- Model of the cumulative-balance analysis of `main`: sort ascending by
date and take the running sum (`cumsum`); an empty subset yields an empty
figure. -/
def saldo_acumulado (df : List Row) : List (Date × Int) :=
  cumSumRows 0 (List.insertionSort rowDateLe df)

/-- Model of the value histogram of `main`: the values the histogram bins;
an empty subset yields an empty figure. -/
def histValues (df : List Row) : List Int :=
  df.map Row.valor

/-! ## The filter stage of `main` (lines 331–353) -/

/-- The outcome of the date-range validation: whether the warning was
shown, and the data set passed onward. -/
structure FilterOutcome where
  warned : Bool
  result : List Row
deriving DecidableEq, Repr

/-- Model of lines 331–336: when the start date is after the end date a
warning is shown and the filter reverts to the unfiltered ledger; otherwise
rows are kept when their date lies in the inclusive range. -/
def applyDateFilter (df : List Row) (s e : Date) : FilterOutcome :=
  if e.key < s.key then ⟨true, df⟩
  else ⟨false, df.filter (fun r => decide (s.key ≤ r.data.key) && decide (r.data.key ≤ e.key))⟩

/-- The filters applied after the date stage: drop zero amounts, then the
transaction-type selector, the payee selector, and the amount-range
slider. -/
def nonDateFilters (df : List Row) (selType selEst : String) (lo hi : Int) : List Row :=
  let d2 := df.filter (fun r => r.valor != 0)
  let d3 := if selType == "Todos" then d2 else d2.filter (fun r => r.tipo == selType)
  let d4 := if selEst == "Todos" then d3 else d3.filter (fun r => r.descricao == selEst)
  d4.filter (fun r => decide (lo ≤ r.valor) && decide (r.valor ≤ hi))

/-- Model of the whole filter stage of `main`: the date filter (with its
invalid-range revert) followed by the non-date filters. -/
def filterPipeline (df : List Row) (s e : Date) (selType selEst : String) (lo hi : Int) : List Row :=
  nonDateFilters (applyDateFilter df s e).result selType selEst lo hi

/-! ## Helper lemmas -/

/-- Assembly is the descending sort of the one-pass `tagRow` extraction of
the concatenation. -/
theorem assemble_eq (tables : List (List StdRow)) :
    assemble tables = List.insertionSort rowDateGe ((concatAll tables).filterMap tagRow) := by
  simp only [assemble]
  congr 1
  induction concatAll tables with
  | nil => rfl
  | cons r rs ih =>
    simp only [List.filterMap_cons]
    cases h : parseTimestamp r.data <;> simp [tagRow, h, ih]

/-- The assembled ledger has as many rows as date-parseable input rows. -/
theorem assemble_length (tables : List (List StdRow)) :
    (assemble tables).length = ((concatAll tables).filterMap tagRow).length := by
  rw [assemble_eq]
  exact (List.perm_insertionSort rowDateGe _).length_eq

/-- A nonempty list of negative integers has a negative sum. -/
theorem list_sum_neg (xs : List Int) (h0 : xs ≠ []) (h : ∀ x ∈ xs, x < 0) : xs.sum < 0 := by
  induction xs with
  | nil => exact absurd rfl h0
  | cons x t ih =>
    rcases t with _ | ⟨y, ys⟩
    · simpa using h x (by simp)
    · have hx : x < 0 := h x (by simp)
      have ht : (y :: ys).sum < 0 := ih (by simp) (fun z hz => h z (by simp [hz]))
      simpa using add_neg hx ht

/-- Keys surviving first-occurrence deduplication come from the input. -/
theorem mem_of_mem_dedupFirstAux {κ : Type} [DecidableEq κ] {x : κ} :
    ∀ {l seen : List κ}, x ∈ dedupFirstAux seen l → x ∈ l := by
  intro l
  induction l with
  | nil => intro seen h; exact absurd h (by simp [dedupFirstAux])
  | cons k ks ih =>
    intro seen h
    simp only [dedupFirstAux] at h
    by_cases hk : k ∈ seen
    · simp only [if_pos hk] at h
      exact List.mem_cons_of_mem _ (ih h)
    · simp only [if_neg hk, List.mem_cons] at h
      rcases h with h | h
      · exact h ▸ List.mem_cons_self _ _
      · exact List.mem_cons_of_mem _ (ih h)

/-- Every entry of a grouped sum over rows with negative amounts is
negative. -/
theorem groupSum_neg {κ : Type} [DecidableEq κ] (key : Row → κ) (l : List Row)
    (hneg : ∀ r ∈ l, r.valor < 0) :
    ∀ p ∈ groupSumBy key l, p.2 < 0 := by
  intro p hp
  simp only [groupSumBy, List.mem_map] at hp
  obtain ⟨k, hk, rfl⟩ := hp
  have hk' : k ∈ l.map key := mem_of_mem_dedupFirstAux hk
  obtain ⟨r, hr, rfl⟩ := List.mem_map.mp hk'
  have hrf : r ∈ l.filter (fun r' => key r' == key r) := by
    exact List.mem_filter.mpr ⟨hr, by simp⟩
  apply list_sum_neg
  · exact fun hc => (by simpa [hc] using List.mem_map_of_mem Row.valor hrf)
  · intro x hx
    obtain ⟨r', hr', rfl⟩ := List.mem_map.mp hx
    exact hneg r' (List.mem_filter.mp hr').1

/-- The parseable dates of a raw table, used to state date-range
disjointness. -/
def datesOf (t : List StdRow) : List Date :=
  t.filterMap (fun r => (parseTimestamp r.data).map Timestamp.date)

/-! ## Claim C1 -/

/-- C1: a file whose headers, after trimming, lowercasing and synonym
mapping, do not yield both a `Data` and a `Valor` column is excluded from
the collected tables, without an exception, and the remaining files are
processed exactly as if the file were absent. -/
theorem c1_bad_headers_skipped (f : FileEntry) (fs₁ fs₂ : List FileEntry)
    (h : ∀ t, readFile f = some t →
      ¬("Data" ∈ normalizeHeaders t.headers ∧ "Valor" ∈ normalizeHeaders t.headers)) :
    (fs₁ ++ f :: fs₂).filterMap processFile = (fs₁ ++ fs₂).filterMap processFile := by
  have hnone : processFile f = none := by
    unfold processFile
    cases hr : readFile f with
    | none => rfl
    | some t =>
      by_cases he : t.rows.isEmpty
      · simp [he]
      · simp [he, processTable, if_neg (h t hr)]
  simp [List.filterMap_append, List.filterMap_cons, hnone]

/-- A CSV file whose single header matches neither synonym. -/
def exBadFile : FileEntry := ⟨"saldo.csv", .csv "foo;bar\n1;2"⟩

/-- Witness for C1 at a concrete file without usable columns. -/
theorem c1_bad_headers_skipped_witness :
    ([exBadFile] : List FileEntry).filterMap processFile
      = ([] : List FileEntry).filterMap processFile := by
  apply c1_bad_headers_skipped exBadFile [] []
  intro t ht
  rw [show readFile exBadFile = some (⟨["foo;bar"], [["1;2"]]⟩ : RawTable) from by decide] at ht
  cases ht
  decide

/-! ## Claim C2 -/

/-- C2: the assembled ledger is sorted descending by date, is a
permutation of the rows of the concatenated tables whose dates parse
(each tagged with the constant metadata), and every row carries
`Tipo_Transacao = 'Movimentação'`, `Categoria = 'N/A'`, no time zone, and
a date obtained from a successful parse. -/
theorem c2_ledger_assembly (tables : List (List StdRow)) :
    List.Sorted rowDateGe (assemble tables)
    ∧ (assemble tables).Perm ((concatAll tables).filterMap tagRow)
    ∧ ∀ r ∈ assemble tables,
        r.tipo = "Movimentação" ∧ r.categoria = "N/A" ∧ r.data.tz = none
        ∧ ∃ s ∈ concatAll tables, ∃ ts, parseTimestamp s.data = some ts ∧ r.data.date = ts.date := by
  refine ⟨?_, ?_, ?_⟩
  · rw [assemble_eq]
    exact List.sorted_insertionSort rowDateGe _
  · rw [assemble_eq]
    exact List.perm_insertionSort rowDateGe _
  · intro r hr
    rw [assemble_eq] at hr
    have hr' : r ∈ (concatAll tables).filterMap tagRow :=
      (List.perm_insertionSort rowDateGe _).mem_iff.mp hr
    obtain ⟨s, hs, hts⟩ := List.mem_filterMap.mp hr'
    unfold tagRow at hts
    obtain ⟨ts, hts1, hts2⟩ := Option.map_eq_some'.mp hts
    subst hts2
    exact ⟨rfl, rfl, rfl, s, hs, ts, hts1, rfl⟩

/-- Two input tables, one with an unparsable date row. -/
def exTables : List (List StdRow) :=
  [[⟨"05/01/2024", "-10", "A"⟩, ⟨"invalid", "3", "B"⟩], [⟨"10/01/2024", "20", "B"⟩]]

/-- The assembled row of `exTables` with the latest date. -/
def exLedgerRow : LedgerRow := ⟨⟨⟨2024, 1, 10⟩, none⟩, "20", "B", "Movimentação", "N/A"⟩

/-- Witness for C2 at a concrete table set and ledger row. -/
theorem c2_ledger_assembly_witness :
    exLedgerRow.tipo = "Movimentação" ∧ exLedgerRow.categoria = "N/A"
    ∧ exLedgerRow.data.tz = none
    ∧ ∃ s ∈ concatAll exTables, ∃ ts,
        parseTimestamp s.data = some ts ∧ exLedgerRow.data.date = ts.date :=
  (c2_ledger_assembly exTables).2.2 exLedgerRow (by decide)

/-! ## Claim C8 -/

/-- C8: for two files with disjoint (parseable) date ranges, the ledger
assembled from both has exactly as many rows as the two ledgers assembled
from each file alone; concatenation drops no accepted row and adds none. -/
theorem c8_disjoint_concat_length (t1 t2 : List StdRow)
    (_h : ∀ d ∈ datesOf t1, d ∉ datesOf t2) :
    (assemble [t1, t2]).length = (assemble [t1]).length + (assemble [t2]).length := by
  simp [assemble_length, concatAll, List.filterMap_append]

/-- A one-row table dated in January. -/
def exT1 : List StdRow := [⟨"01/01/2024", "-5", "A"⟩]

/-- A one-row table dated in February. -/
def exT2 : List StdRow := [⟨"02/02/2024", "7", "B"⟩]

/-- Witness for C8 at two concrete disjoint tables. -/
theorem c8_disjoint_concat_length_witness :
    (assemble [exT1, exT2]).length = (assemble [exT1]).length + (assemble [exT2]).length :=
  c8_disjoint_concat_length exT1 exT2 (by decide)

/-- Decidable equality for `Except`, used to evaluate outcomes of the
per-folder loop. -/
instance {e a : Type} [DecidableEq e] [DecidableEq a] : DecidableEq (Except e a) := fun x y =>
  match x, y with
  | .error e1, .error e2 =>
    if h : e1 = e2 then isTrue (congrArg Except.error h)
    else isFalse (fun hc => h (by injection hc))
  | .error _, .ok _ => isFalse (fun hc => Except.noConfusion hc)
  | .ok _, .error _ => isFalse (fun hc => Except.noConfusion hc)
  | .ok a1, .ok a2 =>
    if h : a1 = a2 then isTrue (congrArg Except.ok h)
    else isFalse (fun hc => h (by injection hc))

/-! ## Claim C9 -/

/-- C9: ingestion halts with a reported error and returns no ledger both
when no folder name matches `'extrato'`/`'fatura'` and when the found
folders yield no table with the required columns; in particular a ledger
is returned only when neither condition holds. -/
theorem c9_fatal_halts (tree : DirTree) :
    (foundFolders tree = [] → load_and_process_data tree = .errorNoFolders)
    ∧ (foundFolders tree ≠ [] → collectTables tree (foundFolders tree) = .ok [] →
        load_and_process_data tree = .errorNoData)
    ∧ (∀ L, load_and_process_data tree = .ok L →
        foundFolders tree ≠ [] ∧ collectTables tree (foundFolders tree) ≠ .ok []) := by
  refine ⟨?_, ?_, ?_⟩
  · intro h
    simp [load_and_process_data, h]
  · intro h1 h2
    simp [load_and_process_data, h2, h1]
  · intro L hL
    by_cases h1 : foundFolders tree = []
    · simp [load_and_process_data, h1] at hL
    · refine ⟨h1, fun h2 => ?_⟩
      simp [load_and_process_data, h1, h2] at hL

/-- A tree with no folder matching the discovery test. -/
def t9a : DirTree := .mk "." [] [.mk "stuff" [] []]

/-- A tree whose single matching folder holds only a file without usable
columns. -/
def t9b : DirTree := .mk "." [] [.mk "extrato1" [exBadFile] []]

/-- Witness for C9: the two fatal halts at concrete trees. -/
theorem c9_fatal_halts_witness :
    load_and_process_data t9a = .errorNoFolders
    ∧ load_and_process_data t9b = .errorNoData :=
  ⟨(c9_fatal_halts t9a).1 (by decide),
   (c9_fatal_halts t9b).2.1 (by decide) (by decide)⟩

/-! ## Claim C4 (folder discovery verses nested-folder ingestion) -/

/-- A CSV file with usable columns. -/
def exGoodFile : FileEntry := ⟨"f.csv", .csv "data,valor\n01/01/2024,-5"⟩

/-- A tree whose only matching folder sits one level below the top of the
walked tree. -/
def c4tree : DirTree := .mk "." [] [.mk "docs" [] [.mk "fatura_jan" [exGoodFile] []]]

/-- C4: discovery does collect the nested matching folder name, but
ingestion then fails fatally: the source keeps only the base name, so
`os.listdir` raises an uncaught `FileNotFoundError` instead of reading the
folder's files. -/
theorem c4_nested_folder_crash :
    foundFolders c4tree = ["fatura_jan"]
    ∧ load_and_process_data c4tree = .crashFolderNotFound "fatura_jan" := by
  constructor
  · decide
  · decide

/-! ## Claim C3 -/

/-- The concrete file of the spec's example: comma-separated header,
semicolon-separated data row. -/
def c3file : FileEntry := ⟨"extrato.csv", .csv "Data,Valor,Descrição\n01/03/2024;-50,00;Mercado"⟩

/-- A tree whose matching folder holds exactly the example file. -/
def c3tree : DirTree := .mk "." [] [.mk "extrato" [c3file] []]

/-- The single ledger row {Date=2024-03-01, Amount=-50.00,
Description="Mercado"} that the claim says the example file produces. -/
def c3SpecRow : LedgerRow := ⟨⟨⟨2024, 3, 1⟩, none⟩, "-50.00", "Mercado", "Movimentação", "N/A"⟩

/-- C3 counterexample: ingesting the example file yields an empty ledger,
not the single claimed row: the comma attempt succeeds (the data row has
fewer fields than the header, so pandas pads it instead of raising), and
the mangled date `01/03/2024;-50` is dropped at date parsing. -/
theorem c3_counterexample :
    load_and_process_data c3tree = .ok []
    ∧ LoadResult.ok ([] : List LedgerRow) ≠ LoadResult.ok [c3SpecRow] := by
  constructor
  · decide
  · decide

/-- C3 amended: on the example file the first (comma) parse wins; the row
splits into the two fields `01/03/2024;-50` and `00;Mercado` padded with a
missing description, the file passes the column check and yields that one
standardized row, and assembly then drops it because its date fails to
parse, so the ledger is empty. -/
theorem c3_amended :
    processFile c3file = some [⟨"01/03/2024;-50", "00;Mercado", ""⟩]
    ∧ load_and_process_data c3tree = .ok [] := by
  constructor
  · decide
  · decide

/-! ## Query-layer helpers -/

/-- The data a figure carries: empty for the empty-state figure. -/
def figData {α : Type} : Fig (List α) → List α
  | .emptyState _ => []
  | .chart d => d

/-- Filtering by a predicate that entails the expense predicate is not
affected by first restricting to expenses. -/
theorem filter_negB_filter (p : Row → Bool) (df : List Row)
    (himp : ∀ r, p r = true → negB r = true) :
    (df.filter negB).filter p = df.filter p := by
  induction df with
  | nil => rfl
  | cons r rs ih =>
    by_cases hn : negB r
    · by_cases hp : p r <;> simp [List.filter_cons, hn, hp, ih]
    · have hp : p r = false := by
        cases hpr : p r
        · rfl
        · exact absurd (himp r hpr) (by simp [hn])
      simp [List.filter_cons, hn, hp, ih]

/-- Rewriting `figData` through the empty-state test. -/
theorem figData_ite {α : Type} (c : Prop) [Decidable c] (ttl : String) (d : List α) :
    figData (if c then Fig.emptyState ttl else Fig.chart d) = if c then [] else d := by
  by_cases h : c <;> simp [h, figData]

/-- The ten entries `nsmallest` keeps all have absolute value at least that
of every entry left out, provided all entries are negative. -/
theorem nsmallest_picks_largest_expenses (sums : List (String × Int))
    (hneg : ∀ p ∈ sums, p.2 < 0) :
    ∀ a ∈ (List.insertionSort valLe sums).take 10,
    ∀ b ∈ (List.insertionSort valLe sums).drop 10, |b.2| ≤ |a.2| := by
  intro a ha b hb
  have hsort : List.Sorted valLe (List.insertionSort valLe sums) :=
    List.sorted_insertionSort valLe sums
  have hle : valLe a b := by
    rw [← List.take_append_drop 10 (List.insertionSort valLe sums)] at hsort
    exact (List.pairwise_append.mp hsort).2.2 a ha b hb
  have hmem : ∀ {x : String × Int}, x ∈ List.insertionSort valLe sums → x.2 < 0 :=
    fun hx => hneg _ ((List.perm_insertionSort valLe sums).mem_iff.mp hx)
  have haneg : a.2 < 0 := hmem (List.take_subset 10 _ ha)
  have hbneg : b.2 < 0 := hmem (List.drop_subset 10 _ hb)
  rw [abs_of_neg haneg, abs_of_neg hbneg]
  exact neg_le_neg hle

/-- Membership through an optional extra filter. -/
theorem mem_of_mem_ite_filter {r : Row} {l : List Row} {c : Prop} [Decidable c] {p : Row → Bool}
    (h : r ∈ if c then l else l.filter p) : r ∈ l := by
  split at h
  · exact h
  · exact (List.mem_filter.mp h).1

/-- Every row surviving the non-date filters has a nonzero amount. -/
theorem mem_nonDateFilters (r : Row) (df : List Row) (ty est : String) (lo hi : Int)
    (h : r ∈ nonDateFilters df ty est lo hi) : r.valor ≠ 0 := by
  simp only [nonDateFilters] at h
  have h4 := (List.mem_filter.mp h).1
  have h3 := mem_of_mem_ite_filter h4
  have h2 := mem_of_mem_ite_filter h3
  have hz := (List.mem_filter.mp h2).2
  simpa using hz

/-! ## Claim C5 -/

/-- C5: every aggregation of the query layer, fed the empty ledger subset,
yields its placeholder: the explicit empty-state figure (monthly totals,
top payees, category pie, daily flow), the single sentinel row (ranking
table), or a figure with no data points (cumulative balance, histogram);
being total functions, none of them can raise. -/
theorem c5_empty_subset_placeholders :
    create_total_by_month_plot [] = .emptyState "Sem dados de gastos para o período"
    ∧ create_top_establishments_plot [] = .emptyState "Sem dados de gastos para o período"
    ∧ create_category_distribution_plot [] = .emptyState "Sem dados de gastos para o período"
    ∧ create_flow_plot [] = .emptyState "Sem dados de fluxo para o período"
    ∧ create_ranking_by_description [] = [("N/A", 0)]
    ∧ saldo_acumulado [] = []
    ∧ histValues [] = [] :=
  ⟨rfl, rfl, rfl, rfl, rfl, rfl, rfl⟩

/-! ## Claim C6 -/

/-- C6: every expense aggregation is insensitive to rows with nonnegative
amount (restricting the input to strictly negative amounts first changes
nothing), all values they report are absolute values (nonnegative), and
the ten payees `nsmallest` keeps — exactly the chart data of the top-payee
plot before the final absolute value — are the ten largest expenses: each
kept payee's summed expense is at least every dropped payee's. -/
theorem c6_expense_sign_policy (df : List Row) :
    create_total_by_month_plot (df.filter negB) = create_total_by_month_plot df
    ∧ create_top_establishments_plot (df.filter negB) = create_top_establishments_plot df
    ∧ create_ranking_by_description (df.filter negB) = create_ranking_by_description df
    ∧ create_category_distribution_plot (df.filter negB) = create_category_distribution_plot df
    ∧ (∀ p ∈ figData (create_total_by_month_plot df), 0 ≤ p.2)
    ∧ (∀ p ∈ figData (create_top_establishments_plot df), 0 ≤ p.2)
    ∧ (∀ p ∈ create_ranking_by_description df, 0 ≤ p.2)
    ∧ (∀ p ∈ figData (create_category_distribution_plot df), 0 ≤ p.2)
    ∧ (∀ a ∈ (List.insertionSort valLe (groupSumBy Row.descricao (df.filter negB))).take 10,
       ∀ b ∈ (List.insertionSort valLe (groupSumBy Row.descricao (df.filter negB))).drop 10,
         |b.2| ≤ |a.2|) := by
  have hinner : (df.filter negB).filter negB = df.filter negB :=
    filter_negB_filter negB df (fun _ h => h)
  have hcat : (df.filter negB).filter (fun r => negB r && (r.tipo != "Pagamento"))
      = df.filter (fun r => negB r && (r.tipo != "Pagamento")) :=
    filter_negB_filter _ df (fun r h => ((Bool.and_eq_true _ _).mp h).1)
  refine ⟨?_, ?_, ?_, ?_, ?_, ?_, ?_, ?_, ?_⟩
  · simp only [create_total_by_month_plot, hinner]
  · simp only [create_top_establishments_plot, hinner]
  · simp only [create_ranking_by_description, hinner]
  · simp only [create_category_distribution_plot, hcat]
  · intro p hp
    simp only [create_total_by_month_plot, figData_ite] at hp
    split at hp
    · exact absurd hp (by simp)
    · obtain ⟨q, _, rfl⟩ := List.mem_map.mp hp
      exact abs_nonneg _
  · intro p hp
    simp only [create_top_establishments_plot, figData_ite] at hp
    split at hp
    · exact absurd hp (by simp)
    · obtain ⟨q, _, rfl⟩ := List.mem_map.mp hp
      exact abs_nonneg _
  · intro p hp
    simp only [create_ranking_by_description] at hp
    split at hp
    · rw [List.mem_singleton.mp hp]
    · have hp' := (List.perm_insertionSort valGe _).mem_iff.mp hp
      obtain ⟨q, _, rfl⟩ := List.mem_map.mp hp'
      exact abs_nonneg _
  · intro p hp
    simp only [create_category_distribution_plot, figData_ite] at hp
    split at hp
    · exact absurd hp (by simp)
    · obtain ⟨q, _, rfl⟩ := List.mem_map.mp hp
      exact abs_nonneg _
  · apply nsmallest_picks_largest_expenses
    exact groupSum_neg Row.descricao (df.filter negB)
      (fun r hr => of_decide_eq_true ((List.mem_filter.mp hr).2))

/-- A concrete one-expense ledger subset. -/
def exDf : List Row :=
  [⟨⟨2024, 1, 1⟩, -5, "A", "Movimentação", "N/A"⟩,
   ⟨⟨2024, 2, 1⟩, 0, "B", "Movimentação", "N/A"⟩,
   ⟨⟨2024, 2, 2⟩, 7, "C", "Movimentação", "N/A"⟩]

/-- Witness for C6 at a concrete ledger subset. -/
theorem c6_expense_sign_policy_witness :
    create_total_by_month_plot (exDf.filter negB) = create_total_by_month_plot exDf :=
  (c6_expense_sign_policy exDf).1

/-! ## Claim C7 -/

/-- C7: when the selected start date is strictly after the end date, the
warning is shown and the date filter reverts to the unfiltered ledger, so
the whole filter stage behaves exactly as the non-date filters applied to
the full ledger. -/
theorem c7_invalid_range_reverts (df : List Row) (s e : Date) (ty est : String) (lo hi : Int)
    (h : e.key < s.key) :
    (applyDateFilter df s e).warned = true
    ∧ (applyDateFilter df s e).result = df
    ∧ filterPipeline df s e ty est lo hi = nonDateFilters df ty est lo hi := by
  refine ⟨?_, ?_, ?_⟩ <;> simp [applyDateFilter, filterPipeline, h]

/-- Witness for C7 at a concrete inverted date range. -/
theorem c7_invalid_range_reverts_witness :
    (applyDateFilter exDf ⟨2024, 5, 1⟩ ⟨2024, 4, 1⟩).warned = true
    ∧ (applyDateFilter exDf ⟨2024, 5, 1⟩ ⟨2024, 4, 1⟩).result = exDf
    ∧ filterPipeline exDf ⟨2024, 5, 1⟩ ⟨2024, 4, 1⟩ "Todos" "Todos" (-100) 100
        = nonDateFilters exDf "Todos" "Todos" (-100) 100 :=
  c7_invalid_range_reverts exDf ⟨2024, 5, 1⟩ ⟨2024, 4, 1⟩ "Todos" "Todos" (-100) 100 (by decide)

/-! ## Claim C10 -/

/-- C10: after the filter stage of `main` — whichever branch the date
validation takes, including the revert on an inverted range — no row with
amount exactly zero survives, so everything downstream (KPIs,
aggregations, narrative, exported CSV) sees only nonzero amounts. -/
theorem c10_no_zero_amount_rows (df : List Row) (s e : Date) (ty est : String) (lo hi : Int) :
    (filterPipeline df s e ty est lo hi).all (fun r => r.valor != 0) = true := by
  rw [List.all_eq_true]
  intro r hr
  simp only [filterPipeline] at hr
  simpa using mem_nonDateFilters r _ ty est lo hi hr
